import Mathlib

/-!
# Verification of `eagerly` (src/src/lib.rs)

A shallow embedding of the `eagerly` crate: a background-refreshed read view
backed by `arc_swap::ArcSwap` (lock-free atomic pointer swap) whose contents
are produced by a user-supplied refresh source and replaced by a spawned loop
on every tick of a `futures_ticker::Ticker`.

Embedding choices, each tied to the source:

* The refresh source (`trait Refresh`, lib.rs:43-48) is an external opaque
  capability whose successive invocations each produce one value of type `V`.
  We model it as an invocation oracle `r : Nat → V`: the `n`-th invocation of
  `Refresh::refresh` produces `r n`.  The initial synchronous invocation made
  inside `Builder::load` (lib.rs:116) is invocation `0`; the loop iteration
  invocations (lib.rs:130) are `1, 2, ...` in order.  `trait Refresh` returns
  `Future<Output = V>`: there is no error channel, so the only failure mode a
  refresh invocation can exhibit is never completing.
* `std::time::Duration` is unsigned; we model it as `Nat` (a zero duration is
  the only non-positive one).
* `Builder` (lib.rs:79-87) is a record of `Option` fields; `view` / `Builder::new`
  (lib.rs:37-41, 94-99) and `Builder::frequency` (lib.rs:101-106) are pure record
  operations.  `Builder::load` (lib.rs:112-143) either returns the initial
  system state (both fields set) or panics; the panic is modelled as
  `Except.error` carrying the panic message, the success as `Except.ok`.
* The running system (the `Arc<ArcSwap>` cell, the handle count of the
  `Arc<Task>` that keeps the spawned loop alive, and the loop itself) is a
  small-step transition system `Step`.  The loop body
  `while tick.next().await.is_some() { let value = load.refresh().await;
  write.store(Arc::new(value)); }` (lib.rs:129-132) alternates two suspension
  points, so the loop phase is `awaitTick` (parked on the ticker) or
  `awaitRefresh` (a refresh invocation in flight); the store into the cell
  happens atomically with the completion of the in-flight invocation.
  `View` is `#[derive(Clone)]` over `Arc` fields (lib.rs:146-154), so cloning
  a handle increments the strong count of the shared `Arc<Task>`; dropping the
  last handle drops the `smol::Task`, which cancels the spawned loop
  (`stopped`).  `View::read` (lib.rs:160-162) is `self.value.load()`: it
  returns the current cell contents.
* Handle/cell sharing under `#[derive(Clone)]` is additionally modelled
  pointer-style: an `ArcSwapHeap` maps cell ids to contents and a `View`
  record holds the ids of its two `Arc` fields; `Clone` copies the ids
  (`Arc::clone` yields the same allocation).
-/

set_option autoImplicit false

namespace Eagerly

variable {V : Type}

/-- The refresh source (`trait Refresh`, lib.rs:43-48) as an invocation
oracle: the `n`-th invocation of `Refresh::refresh` produces the value `r n`. -/
abbrev Refresh (V : Type) := Nat → V

/-- `struct Builder` (lib.rs:79-87): an optional refresh source and an
optional frequency (`Duration` modelled as `Nat`). -/
structure Builder (V : Type) where
  refresh : Option (Refresh V)
  frequency : Option Nat

/-- `impl Default for Builder` (lib.rs:64-76): both fields `None`. -/
def Builder.default : Builder V :=
  { refresh := none, frequency := none }

/-- `Builder::new` (lib.rs:94-99): the refresh source set, the rest default. -/
def Builder.new (r : Refresh V) : Builder V :=
  { (Builder.default : Builder V) with refresh := some r }

/-- `fn view` (lib.rs:37-41): creates a builder from the refresh source. -/
def view (r : Refresh V) : Builder V :=
  Builder.new r

/-- `Builder::frequency` (lib.rs:101-106); named `setFrequency` because
`Builder.frequency` is the field projection.  Sets the frequency field,
keeping the rest of the builder (`..self`). -/
def Builder.setFrequency (b : Builder V) (d : Nat) : Builder V :=
  { b with frequency := some d }

/-- The two suspension points of the spawned loop body (lib.rs:129-132),
plus the cancelled state entered when the `smol::Task` is dropped. -/
inductive Phase : Type where
  | awaitTick : Phase
  | awaitRefresh : Phase
  | stopped : Phase

/-- The state of one loaded cache: the contents of the shared `ArcSwap` cell,
the configured period, the strong count of the `Arc<Task>` (the number of live
`View` handles), the loop phase, the number of refresh invocations begun
(invocation `0` is the synchronous one in `load`), and the number of stores
the loop has completed (lib.rs:131). -/
structure Sys (V : Type) where
  cellVal : V
  freq : Nat
  handles : Nat
  phase : Phase
  calls : Nat
  stores : Nat

/-- `View::read` (lib.rs:160-162): `self.value.load()` — the current cell
contents.  Total: the cell holds a whole value of type `V` at every instant. -/
def Sys.read (s : Sys V) : V :=
  s.cellVal

/-- The system state at the instant `Builder::load` returns (lib.rs:114-140):
the cell was created already holding the awaited initial value `r 0`
(`ArcSwap::new(Arc::new(value))`, lib.rs:117), one invocation has happened,
the spawned loop is parked on its first tick, no loop store has completed,
and exactly one handle (the returned `View`) exists. -/
def initSys (r : Refresh V) (freq : Nat) : Sys V :=
  { cellVal := r 0, freq := freq, handles := 1, phase := .awaitTick,
    calls := 1, stores := 0 }

/-- `Builder::load` (lib.rs:112-143): with both fields set it awaits the
initial refresh, publishes it into a newly created cell, spawns the loop and
returns the handle (the `ok` state); with either field missing it panics
(modelled as `Except.error` carrying the panic message of lib.rs:141). -/
def Builder.load (b : Builder V) : Except String (Sys V) :=
  match b.refresh, b.frequency with
  | some load, some freq => .ok (initSys load freq)
  | _, _ => .error "Refresh function was not specified"

/-- One interleaving step of the running system:

* `tick` — the ticker fires (`tick.next().await` resumes, lib.rs:129) and the
  loop begins its next refresh invocation (`load.refresh()`, lib.rs:130);
* `refreshDone` — the in-flight invocation (number `calls - 1`) completes and
  its value is stored into the cell (`write.store(Arc::new(value))`,
  lib.rs:131); only a completed invocation is ever stored;
* `clone` — a live handle is cloned (`#[derive(Clone)]`, lib.rs:146),
  incrementing the strong count of the shared `Arc<Task>`;
* `drop` — a live handle is dropped; when it was the last one the
  `Arc<Task>` strong count reaches zero, the `smol::Task` is dropped and the
  spawned loop is cancelled. -/
inductive Step (r : Refresh V) : Sys V → Sys V → Prop where
  | tick (s : Sys V) (h : s.phase = .awaitTick) :
      Step r s { s with phase := .awaitRefresh, calls := s.calls + 1 }
  | refreshDone (s : Sys V) (h : s.phase = .awaitRefresh) :
      Step r s { s with phase := .awaitTick, cellVal := r (s.calls - 1),
                        stores := s.stores + 1 }
  | clone (s : Sys V) (h : 0 < s.handles) :
      Step r s { s with handles := s.handles + 1 }
  | drop (s : Sys V) (h : 0 < s.handles) :
      Step r s { s with handles := s.handles - 1,
                        phase := if s.handles = 1 then .stopped else s.phase }

/-- Pointer-style model of the `Arc<ArcSwap<V>>` allocations: cell id `c`
holds `cells[c]`.  `store` is `ArcSwap::store` on one cell. -/
structure ArcSwapHeap (V : Type) where
  cells : List V

/-- `ArcSwap::store` on cell `c` (the write side of lib.rs:131). -/
def ArcSwapHeap.store (h : ArcSwapHeap V) (c : Nat) (w : V) : ArcSwapHeap V :=
  { cells := h.cells.set c w }

/-- Reading cell `c` (the `self.value.load()` of lib.rs:161). -/
def ArcSwapHeap.readCell (h : ArcSwapHeap V) (c : Nat) : Option V :=
  h.cells[c]?

/-- `struct View` (lib.rs:146-154) pointer-style: the ids of the two `Arc`
allocations it holds — the shared `ArcSwap` cell and the shared `Task`. -/
structure View (V : Type) where
  value : Nat
  ticker : Nat

/-- `#[derive(Clone)]` on `View` (lib.rs:146): `Arc::clone` of each field
yields a handle to the same allocations. -/
def View.clone (v : View V) : View V :=
  { value := v.value, ticker := v.ticker }

/-- `View::read` (lib.rs:160-162) pointer-style: load the cell this handle
points to. -/
def View.read (v : View V) (h : ArcSwapHeap V) : Option V :=
  h.readCell v.value

/-- A concrete refresh source used to instantiate theorems: invocation `n`
returns `n`. -/
def natOracle : Refresh Nat := fun n => n

/-! ## System invariant

Every reachable state satisfies: the cell holds the value of the `stores`-th
invocation (the initial one when `stores = 0`), every published value comes
from a begun-and-completed invocation (`stores < calls`), the phase/counter
bookkeeping of the loop body, and the strong count of the `Arc<Task>` is zero
exactly when the loop has been cancelled. -/

def Inv (r : Refresh V) (s : Sys V) : Prop :=
  s.cellVal = r s.stores ∧
  s.stores < s.calls ∧
  (s.phase = .awaitTick → s.calls = s.stores + 1) ∧
  (s.phase = .awaitRefresh → s.calls = s.stores + 2) ∧
  (s.handles = 0 ↔ s.phase = .stopped)

lemma initSys_inv (r : Refresh V) (d : Nat) : Inv r (initSys r d) := by
  refine ⟨rfl, Nat.zero_lt_one, fun _ => rfl, fun h => ?_, ?_⟩
  · exact Phase.noConfusion h
  · constructor
    · intro h
      exact absurd h Nat.one_ne_zero
    · intro h
      exact Phase.noConfusion h

lemma step_inv {r : Refresh V} {s s' : Sys V} (hs : Step r s s') (hi : Inv r s) :
    Inv r s' := by
  obtain ⟨h1, h2, h3, h4, h5⟩ := hi
  cases hs with
  | tick h =>
    have hcalls : s.calls = s.stores + 1 := h3 h
    refine ⟨h1, Nat.lt_succ_of_lt h2, fun hc => ?_, fun _ => ?_, ?_⟩
    · exact Phase.noConfusion hc
    · show s.calls + 1 = s.stores + 2
      omega
    · constructor
      · intro hh
        have hst := h5.mp hh
        rw [h] at hst
        exact Phase.noConfusion hst
      · intro hp
        exact Phase.noConfusion hp
  | refreshDone h =>
    have hcalls : s.calls = s.stores + 2 := h4 h
    refine ⟨?_, ?_, fun _ => ?_, fun hc => ?_, ?_⟩
    · show r (s.calls - 1) = r (s.stores + 1)
      rw [hcalls]
      rfl
    · show s.stores + 1 < s.calls
      omega
    · show s.calls = s.stores + 1 + 1
      omega
    · exact Phase.noConfusion hc
    · constructor
      · intro hh
        have hst := h5.mp hh
        rw [h] at hst
        exact Phase.noConfusion hst
      · intro hp
        exact Phase.noConfusion hp
  | clone h =>
    refine ⟨h1, h2, h3, h4, ?_⟩
    constructor
    · intro hh
      exact absurd hh (Nat.succ_ne_zero _)
    · intro hp
      have h0 := h5.mpr hp
      omega
  | drop h =>
    by_cases hone : s.handles = 1
    · refine ⟨h1, h2, fun hc => ?_, fun hc => ?_, ?_⟩
      · rw [if_pos hone] at hc
        exact absurd hc (fun hc => Phase.noConfusion hc)
      · rw [if_pos hone] at hc
        exact absurd hc (fun hc => Phase.noConfusion hc)
      · rw [if_pos hone]
        constructor
        · intro _
          rfl
        · intro _
          show s.handles - 1 = 0
          omega
    · refine ⟨h1, h2, fun hc => ?_, fun hc => ?_, ?_⟩
      · rw [if_neg hone] at hc
        exact h3 hc
      · rw [if_neg hone] at hc
        exact h4 hc
      · rw [if_neg hone]
        constructor
        · intro hh
          have hh' : s.handles - 1 = 0 := hh
          omega
        · intro hp
          have h0 := h5.mpr hp
          omega

lemma reach_inv {r : Refresh V} {d : Nat} {s : Sys V}
    (h : Relation.ReflTransGen (Step r) (initSys r d) s) : Inv r s := by
  induction h with
  | refl => exact initSys_inv r d
  | tail _ hstep ih => exact step_inv hstep ih

lemma step_stores_mono {r : Refresh V} {s s' : Sys V} (hs : Step r s s') :
    s.stores ≤ s'.stores := by
  cases hs with
  | tick h => exact Nat.le_refl _
  | refreshDone h => exact Nat.le_succ _
  | clone h => exact Nat.le_refl _
  | drop h => exact Nat.le_refl _

lemma rtg_stores_mono {r : Refresh V} {s s' : Sys V}
    (h : Relation.ReflTransGen (Step r) s s') : s.stores ≤ s'.stores := by
  induction h with
  | refl => exact Nat.le_refl _
  | tail _ hstep ih => exact Nat.le_trans ih (step_stores_mono hstep)

lemma stopped_no_step {r : Refresh V} {s s' : Sys V} (hinv : Inv r s)
    (hstop : s.phase = .stopped) (hs : Step r s s') : False := by
  have h0 : s.handles = 0 := hinv.2.2.2.2.mpr hstop
  cases hs with
  | tick h =>
    rw [hstop] at h
    exact Phase.noConfusion h
  | refreshDone h =>
    rw [hstop] at h
    exact Phase.noConfusion h
  | clone h => omega
  | drop h => omega

lemma stopped_rtg_eq {r : Refresh V} {s s' : Sys V} (hinv : Inv r s)
    (hstop : s.phase = .stopped)
    (h : Relation.ReflTransGen (Step r) s s') : s' = s := by
  rcases Relation.ReflTransGen.cases_head h with heq | ⟨b, hb, _⟩
  · exact heq.symm
  · exact (stopped_no_step hinv hstop hb).elim

/-! ## The claims -/

/-- **C1.** For every cache built by `load()`, at every instant after `load()`
returns (i.e. in every state reachable from the post-`load` state), `read()`
returns a whole value of type `V` (the cell is never empty and never holds a
mixture) that is exactly the output of one actual invocation of the refresh
source — the initial synchronous invocation or a later loop iteration
(`j < s.calls`). -/
theorem read_is_refresh_output {r : Refresh V} {d : Nat} {s : Sys V}
    (h : Relation.ReflTransGen (Step r) (initSys r d) s) :
    ∃ j, j < s.calls ∧ s.read = r j := by
  obtain ⟨h1, h2, -, -, -⟩ := reach_inv h
  exact ⟨s.stores, h2, h1⟩

/-- Witness for C1 at the post-`load` state of a concrete cache. -/
theorem read_is_refresh_output_witness :
    ∃ j, j < (initSys natOracle 7).calls ∧
      (initSys natOracle 7).read = natOracle j :=
  read_is_refresh_output Relation.ReflTransGen.refl

/-- **C2.** For every builder with both a refresh source and a frequency set,
`load()` performs exactly one synchronous refresh invocation (`calls = 1`),
publishes its result into the newly created cell, spawns the loop (parked on
its first tick) and returns the handle (`handles = 1`); `read()` on the
returned handle before any background store (`stores = 0`) returns exactly
the first refresh result `r 0`. -/
theorem load_initial_publish {b : Builder V} {r : Refresh V} {d : Nat}
    (h1 : b.refresh = some r) (h2 : b.frequency = some d) :
    b.load = Except.ok (initSys r d) ∧ (initSys r d).read = r 0 ∧
      (initSys r d).calls = 1 ∧ (initSys r d).stores = 0 ∧
      (initSys r d).phase = .awaitTick ∧ (initSys r d).handles = 1 := by
  refine ⟨?_, rfl, rfl, rfl, rfl, rfl⟩
  unfold Builder.load
  rw [h1, h2]

/-- Witness for C2 on a concrete builder. -/
theorem load_initial_publish_witness :
    ((view natOracle).setFrequency 7).load = Except.ok (initSys natOracle 7) ∧
      (initSys natOracle 7).read = natOracle 0 ∧
      (initSys natOracle 7).calls = 1 ∧ (initSys natOracle 7).stores = 0 ∧
      (initSys natOracle 7).phase = .awaitTick ∧
      (initSys natOracle 7).handles = 1 :=
  load_initial_publish rfl rfl

/-- **C3.** `load()` fails fatally (the `panic!` of lib.rs:141, surfaced
synchronously, never a silent default) whenever the refresh source or the
frequency is unset; the error result carries neither a spawned loop nor a
cache handle. -/
theorem load_missing_field_fails {b : Builder V}
    (h : b.refresh = none ∨ b.frequency = none) :
    b.load = Except.error "Refresh function was not specified" := by
  obtain ⟨rf, fq⟩ := b
  cases h with
  | inl h =>
    have h' : rf = none := h
    subst h'
    cases fq <;> rfl
  | inr h =>
    have h' : fq = none := h
    subst h'
    cases rf <;> rfl

/-- Witness for C3 on the all-unset default builder. -/
theorem load_missing_field_fails_witness :
    (Builder.default : Builder Nat).load =
      Except.error "Refresh function was not specified" :=
  load_missing_field_fails (Or.inl rfl)

/-- **C4, counterexample.** The claim says `load()` must fail on a
zero-duration frequency; on the concrete builder
`view natOracle |>.setFrequency 0` the code instead succeeds and spawns the
loop with period `0`: `Builder::load` (lib.rs:113) only distinguishes
`Some`/`None`, never inspecting the duration's value. -/
theorem load_zero_frequency_accepted_cex :
    ((view natOracle).setFrequency 0).load = Except.ok (initSys natOracle 0) :=
  rfl

/-- **C4, amended.** The frequency is not validated for positivity: for every
refresh source and every duration `d`, including `d = 0`, `load()` succeeds,
publishes the initial value and spawns the loop with period `d`; `load()`
fails only when the refresh source or the frequency is unset. -/
theorem load_any_frequency_succeeds (r : Refresh V) (d : Nat) :
    ((view r).setFrequency d).load = Except.ok (initSys r d) :=
  rfl

/-- **C5.** While the loop runs, a value is stored into the cell only
atomically with the completion of the invocation it came from (`Step.refreshDone`
is the only step changing the cell), so in every reachable state the cell
holds the output of the `stores`-th invocation — after the `k`-th completed
tick (`s.stores = k`) the cell equals the `k`-th loop refresh output `r k` —
and every published value comes from an invocation that has completed
(`s.stores < s.calls`). -/
theorem loop_store_after_refresh {r : Refresh V} {d : Nat} {s : Sys V}
    (h : Relation.ReflTransGen (Step r) (initSys r d) s) :
    s.read = r s.stores ∧ s.stores < s.calls := by
  obtain ⟨h1, h2, -, -, -⟩ := reach_inv h
  exact ⟨h1, h2⟩

/-- Witness for C5 after one concrete tick-and-refresh cycle. -/
theorem loop_store_after_refresh_witness :
    (⟨natOracle 1, 7, 1, .awaitTick, 2, 1⟩ : Sys Nat).read =
        natOracle (⟨natOracle 1, 7, 1, .awaitTick, 2, 1⟩ : Sys Nat).stores ∧
      (⟨natOracle 1, 7, 1, .awaitTick, 2, 1⟩ : Sys Nat).stores <
        (⟨natOracle 1, 7, 1, .awaitTick, 2, 1⟩ : Sys Nat).calls := by
  have t1 : Relation.ReflTransGen (Step natOracle) (initSys natOracle 7)
      (⟨natOracle 0, 7, 1, .awaitRefresh, 2, 0⟩ : Sys Nat) :=
    Relation.ReflTransGen.single (Step.tick _ rfl)
  have t2 := Relation.ReflTransGen.tail t1 (Step.refreshDone _ rfl)
  exact loop_store_after_refresh
    (show Relation.ReflTransGen (Step natOracle) (initSys natOracle 7)
      (⟨natOracle 1, 7, 1, .awaitTick, 2, 1⟩ : Sys Nat) from t2)

/-- **C6.** `clone()` on a cache handle produces a new handle holding the same
two `Arc` allocations — in particular the same underlying shared cell — so
after any store, `read()` through a handle and through its clone (with no
store interleaved) return the same current value: one logical cache, many
observation points. -/
theorem clone_shares_cell (vw : View V) (hp : ArcSwapHeap V) (c : Nat) (w : V) :
    vw.clone.value = vw.value ∧ vw.clone.ticker = vw.ticker ∧
      vw.clone.read (hp.store c w) = vw.read (hp.store c w) :=
  ⟨rfl, rfl, rfl⟩

/-- **C7.** Monotonic visibility: a `read()` in a state `s'` that
happens-after a state `s` (in particular, after every store completed by `s`)
observes the value of the latest completed store of `s'`, whose index is at
least `s`'s — never an earlier one — and is itself one exact refresh output. -/
theorem read_monotonic_visibility {r : Refresh V} {d : Nat} {s s' : Sys V}
    (h1 : Relation.ReflTransGen (Step r) (initSys r d) s)
    (h2 : Relation.ReflTransGen (Step r) s s') :
    s'.read = r s'.stores ∧ s.stores ≤ s'.stores := by
  obtain ⟨hc, -, -, -, -⟩ := reach_inv (h1.trans h2)
  exact ⟨hc, rtg_stores_mono h2⟩

/-- Witness for C7: a read after one concrete completed store observes it. -/
theorem read_monotonic_visibility_witness :
    (⟨natOracle 1, 7, 1, .awaitTick, 2, 1⟩ : Sys Nat).read =
        natOracle (⟨natOracle 1, 7, 1, .awaitTick, 2, 1⟩ : Sys Nat).stores ∧
      (initSys natOracle 7).stores ≤
        (⟨natOracle 1, 7, 1, .awaitTick, 2, 1⟩ : Sys Nat).stores := by
  have t1 : Relation.ReflTransGen (Step natOracle) (initSys natOracle 7)
      (⟨natOracle 0, 7, 1, .awaitRefresh, 2, 0⟩ : Sys Nat) :=
    Relation.ReflTransGen.single (Step.tick _ rfl)
  have t2 := Relation.ReflTransGen.tail t1 (Step.refreshDone _ rfl)
  exact read_monotonic_visibility Relation.ReflTransGen.refl
    (show Relation.ReflTransGen (Step natOracle) (initSys natOracle 7)
      (⟨natOracle 1, 7, 1, .awaitTick, 2, 1⟩ : Sys Nat) from t2)

/-- **C8.** When the last cache handle is dropped the loop stops: in any
reachable state with no live handles (`s.handles = 0`, the `Arc<Task>` strong
count has reached zero, dropping and thereby cancelling the `smol::Task`),
the loop is `stopped` and the refresh source is never invoked again — in
every later state the invocation count is unchanged. -/
theorem drop_all_handles_stops_loop {r : Refresh V} {d : Nat} {s s' : Sys V}
    (h1 : Relation.ReflTransGen (Step r) (initSys r d) s)
    (h0 : s.handles = 0)
    (h2 : Relation.ReflTransGen (Step r) s s') :
    s'.calls = s.calls ∧ s'.phase = .stopped := by
  have hinv := reach_inv h1
  have hstop : s.phase = .stopped := hinv.2.2.2.2.mp h0
  have heq : s' = s := stopped_rtg_eq hinv hstop h2
  subst heq
  exact ⟨rfl, hstop⟩

/-- Witness for C8: dropping the only handle of a concrete cache. -/
theorem drop_all_handles_stops_loop_witness :
    (⟨natOracle 0, 7, 0, .stopped, 1, 0⟩ : Sys Nat).calls =
        (⟨natOracle 0, 7, 0, .stopped, 1, 0⟩ : Sys Nat).calls ∧
      (⟨natOracle 0, 7, 0, .stopped, 1, 0⟩ : Sys Nat).phase = .stopped := by
  have t1 : Relation.ReflTransGen (Step natOracle) (initSys natOracle 7)
      (⟨natOracle 0, 7, 0, .stopped, 1, 0⟩ : Sys Nat) :=
    Relation.ReflTransGen.single (Step.drop (initSys natOracle 7) Nat.one_pos)
  exact drop_all_handles_stops_loop t1 rfl Relation.ReflTransGen.refl

/-- **C9.** Errors during a background refresh never propagate to readers.
The `Refresh` trait (lib.rs:43-48) returns `Future<Output = V>` — it has no
error channel, so the only failure mode a periodic refresh can exhibit is
never completing, i.e. an execution in which no store completes
(`s'.stores = s.stores`); along any such execution every `read()` still
returns the previously published value.  (The initial construction-time
invocation is awaited inside `load()` before the cell, loop or handle exist,
so its failure surfaces to the caller of `load()` alone.) -/
theorem failed_refresh_preserves_value {r : Refresh V} {s s' : Sys V}
    (h : Relation.ReflTransGen (Step r) s s') (hns : s'.stores = s.stores) :
    s'.read = s.read := by
  induction h with
  | refl => rfl
  | tail hab hstep ih =>
    rename_i b c
    have hmono : s.stores ≤ b.stores := rtg_stores_mono hab
    cases hstep with
    | tick h => exact ih hns
    | refreshDone h =>
      have hns' : b.stores + 1 = s.stores := hns
      omega
    | clone h => exact ih hns
    | drop h => exact ih hns

/-- Witness for C9: a tick with its refresh still in flight (no store)
leaves the visible value unchanged. -/
theorem failed_refresh_preserves_value_witness :
    (⟨natOracle 0, 7, 1, .awaitRefresh, 2, 0⟩ : Sys Nat).read =
      (initSys natOracle 7).read :=
  failed_refresh_preserves_value
    (show Relation.ReflTransGen (Step natOracle) (initSys natOracle 7)
        (⟨natOracle 0, 7, 1, .awaitRefresh, 2, 0⟩ : Sys Nat) from
      Relation.ReflTransGen.single (Step.tick _ rfl)) rfl

/-- **C10.** `Builder::frequency` changes only the frequency field:
`b.frequency(d1)` leaves the refresh source of `b` unchanged, and
`b.frequency(d1).frequency(d2)` has frequency `d2` (the last call wins) with
the refresh source still unchanged. -/
theorem setFrequency_frame (b : Builder V) (d1 d2 : Nat) :
    (b.setFrequency d1).refresh = b.refresh ∧
      (b.setFrequency d1).frequency = some d1 ∧
      ((b.setFrequency d1).setFrequency d2).frequency = some d2 ∧
      ((b.setFrequency d1).setFrequency d2).refresh = b.refresh :=
  ⟨rfl, rfl, rfl, rfl⟩

end Eagerly
